import Mathlib

/-!
Verification of the `NeumorphicDropButton` component (Switch repository).

The component consists of three parts:
* the toggle interaction controller (`handlePressStart`, `handlePressEnd`,
  `handleMouseLeave`, wired to mouse-down/up/leave and touch-start/end events);
* the audio engine lifecycle manager (`getAudioContext`, a lazily constructed
  singleton `AudioContext` held in a ref cell, resumed when suspended);
* the tone envelope generator (`playClickSound`, which builds a two-oscillator
  audio graph per press or release event).

The embedding below follows the source line by line.  Handlers are modelled as
the ordered list of observable actions they perform; the ref cell is threaded
explicitly; the audio graph built by `playClickSound` is reified as a record of
the nodes it creates, with times, frequencies and gains as exact rationals.
-/

/-- The tone event argument of `playClickSound`: `'down'` (press) or `'up'` (release). -/
inductive ToneEvent
  | press
  | release
  deriving DecidableEq, Repr

/-- An observable action performed by an event handler, in source order:
a `setIsPressed` state update, a `playClickSound` call, or the `onToggle` callback. -/
inductive ButtonAction
  | setPressed : Bool → ButtonAction
  | playTone : ToneEvent → ButtonAction
  | invokeToggle : ButtonAction
  deriving DecidableEq, Repr

/-- `handlePressStart`: `setIsPressed(true); playClickSound('down')`. -/
def handlePressStart : List ButtonAction :=
  [ButtonAction.setPressed true, ButtonAction.playTone ToneEvent.press]

/-- `handlePressEnd`: `if (isPressed) { setIsPressed(false); playClickSound('up'); onToggle(); }`. -/
def handlePressEnd (isPressed : Bool) : List ButtonAction :=
  if isPressed then
    [ButtonAction.setPressed false, ButtonAction.playTone ToneEvent.release, ButtonAction.invokeToggle]
  else []

/-- `handleMouseLeave`: `if (isPressed) { setIsPressed(false); }`. -/
def handleMouseLeave (isPressed : Bool) : List ButtonAction :=
  if isPressed then [ButtonAction.setPressed false] else []

/-- The DOM events the button element subscribes to. -/
inductive DomEvent
  | mouseDown
  | touchStart
  | mouseUp
  | touchEnd
  | mouseLeave
  deriving DecidableEq, Repr

/-- Event wiring of the `<button>` element: `onMouseDown`/`onTouchStart` call
`handlePressStart`, `onMouseUp`/`onTouchEnd` call `handlePressEnd`,
`onMouseLeave` calls `handleMouseLeave`. -/
def dispatch (isPressed : Bool) : DomEvent → List ButtonAction
  | DomEvent.mouseDown => handlePressStart
  | DomEvent.touchStart => handlePressStart
  | DomEvent.mouseUp => handlePressEnd isPressed
  | DomEvent.touchEnd => handlePressEnd isPressed
  | DomEvent.mouseLeave => handleMouseLeave isPressed

/-- Effect of one action on the `isPressed` state. -/
def applyAction (p : Bool) : ButtonAction → Bool
  | ButtonAction.setPressed b => b
  | ButtonAction.playTone _ => p
  | ButtonAction.invokeToggle => p

/-- Effect of a handler's action list on the `isPressed` state. -/
def applyActions (p : Bool) (as : List ButtonAction) : Bool :=
  as.foldl applyAction p

/-- The `isPressed` state after one DOM event is handled. -/
def stepState (p : Bool) (e : DomEvent) : Bool :=
  applyActions p (dispatch p e)

/-- Run a sequence of DOM events from state `p`; returns the final `isPressed`
state and the concatenated log of actions, in order. -/
def run (p : Bool) : List DomEvent → Bool × List ButtonAction
  | [] => (p, [])
  | e :: rest =>
      ((run (stepState p e) rest).1, dispatch p e ++ (run (stepState p e) rest).2)

/-- The tone events scheduled in an action log, in order. -/
def tonesOf (log : List ButtonAction) : List ToneEvent :=
  log.filterMap fun a =>
    match a with
    | ButtonAction.playTone ty => some ty
    | _ => none

/-- How many times the action log invokes the `onToggle` callback. -/
def toggleCount (log : List ButtonAction) : Nat :=
  (log.filter fun a =>
    match a with
    | ButtonAction.invokeToggle => true
    | _ => false).length

/-- Whether a DOM event is a press-start event (mouse-down or touch-start). -/
def startsPress : DomEvent → Bool
  | DomEvent.mouseDown => true
  | DomEvent.touchStart => true
  | _ => false

theorem stepState_eq_startsPress (p : Bool) (e : DomEvent) :
    stepState p e = startsPress e := by
  cases p <;> cases e <;> rfl

theorem run_fst_eq (es : List DomEvent) :
    ∀ p : Bool, (run p es).1 = (es.getLast?.any startsPress || (es.isEmpty && p)) := by
  induction es with
  | nil => intro p; simp [run]
  | cons e rest ih =>
      intro p
      show (run (stepState p e) rest).1 = _
      rw [ih]
      cases rest with
      | nil => simp [stepState_eq_startsPress]
      | cons e2 r2 => simp [List.getLast?_cons_cons]

/-- Running state of an `AudioContext` (`ctx.state`). -/
inductive CtxState
  | running
  | suspended
  deriving DecidableEq, Repr

/-- A handle to an underlying audio context.  `ctxId` identifies the underlying
context object, so that two handles reference the same context iff their ids
agree. -/
structure AudioContextHandle where
  ctxId : Nat
  state : CtxState
  deriving DecidableEq, Repr

/-- `ctx.resume()`: the same underlying context, running again. -/
def AudioContextHandle.resume (c : AudioContextHandle) : AudioContextHandle :=
  { c with state := CtxState.running }

/-- `getAudioContext`, with the ref cell threaded explicitly.

`hasCtor` is the capability probe `window.AudioContext || window.webkitAudioContext`
(true iff the host exposes a constructor); `fresh` is the context object a
`new AudioContext()` call would produce.  Returns the new contents of
`audioContextRef.current` — which is also the function's return value in the
source — together with the number of constructor calls made (0 or 1). -/
def getAudioContext (hasCtor : Bool) (fresh : AudioContextHandle)
    (ref : Option AudioContextHandle) : Option AudioContextHandle × Nat :=
  match ref with
  | none =>
      if hasCtor then
        (some (if fresh.state = CtxState.suspended then fresh.resume else fresh), 1)
      else (none, 0)
  | some c =>
      (some (if c.state = CtxState.suspended then c.resume else c), 0)

/-- A sequence of `getAudioContext` calls (each with its own capability-probe
outcome and candidate fresh context), threading the ref cell and accumulating
the total number of constructor calls. -/
def runGetCtx : List (Bool × AudioContextHandle) →
    Option AudioContextHandle × Nat → Option AudioContextHandle × Nat
  | [], st => st
  | call :: rest, st =>
      runGetCtx rest
        ((getAudioContext call.1 call.2 st.1).1, st.2 + (getAudioContext call.1 call.2 st.1).2)

theorem getAudioContext_some (hasCtor : Bool) (fresh c : AudioContextHandle) :
    getAudioContext hasCtor fresh (some c) =
      (some (if c.state = CtxState.suspended then c.resume else c), 0) := rfl

theorem getAudioContext_some_id (hasCtor : Bool) (fresh c : AudioContextHandle) :
    Option.map AudioContextHandle.ctxId (getAudioContext hasCtor fresh (some c)).1 =
      some c.ctxId := by
  rw [getAudioContext_some]
  by_cases h : c.state = CtxState.suspended <;> simp [h, AudioContextHandle.resume]

theorem runGetCtx_some (calls : List (Bool × AudioContextHandle)) :
    ∀ (c : AudioContextHandle) (n : Nat), (runGetCtx calls (some c, n)).2 = n := by
  induction calls with
  | nil => intro c n; rfl
  | cons call rest ih =>
      intro c n
      show (runGetCtx rest _).2 = n
      rw [getAudioContext_some]
      simpa using ih _ n

theorem runGetCtx_none_le (calls : List (Bool × AudioContextHandle)) :
    ∀ n : Nat, (runGetCtx calls (none, n)).2 ≤ n + 1 := by
  induction calls with
  | nil => intro n; exact Nat.le_succ n
  | cons call rest ih =>
      intro n
      show (runGetCtx rest _).2 ≤ n + 1
      by_cases h : call.1 = true
      · rw [show getAudioContext call.1 call.2 none =
            (some (if call.2.state = CtxState.suspended then call.2.resume else call.2), 1) by
              simp [getAudioContext, h]]
        simpa using Nat.le_of_eq (runGetCtx_some rest _ (n + 1))
      · rw [show getAudioContext call.1 call.2 none = (none, 0) by
              simp [getAudioContext, Bool.of_not_eq_true h]]
        simpa using ih n

/-- Oscillator waveforms used by the source (`snapOsc.type = 'triangle'`,
`bodyOsc.type = 'sine'`). -/
inductive Waveform
  | triangle
  | sine
  deriving DecidableEq, Repr

/-- Identity of a node in the audio graph built by one `playClickSound` call. -/
inductive NodeRef
  | dest
  | master
  | snapOscN
  | snapGainN
  | bodyOscN
  | bodyGainN
  deriving DecidableEq, Repr

/-- An oscillator node: waveform, frequency sweep
(`setValueAtTime(freqStart, t)` then
`exponentialRampToValueAtTime(freqEnd, freqRampEnd)`), the `start`/`stop`
schedule, and the node it is connected to. -/
structure OscNode where
  wave : Waveform
  freqStart : ℚ
  freqEnd : ℚ
  freqRampEnd : ℚ
  startTime : ℚ
  stopTime : ℚ
  connectedTo : NodeRef
  deriving DecidableEq, Repr

/-- A per-oscillator gain node: `gain.setValueAtTime(gainStart, t)` then
`gain.exponentialRampToValueAtTime(gainEnd, decayEnd)`, connected onward. -/
structure GainNode where
  gainStart : ℚ
  gainEnd : ℚ
  decayEnd : ℚ
  connectedTo : NodeRef
  deriving DecidableEq, Repr

/-- The master gain node: `masterGain.gain.value = 1.0`, connected to
`ctx.destination`. -/
structure MasterGainNode where
  gainValue : ℚ
  connectedTo : NodeRef
  deriving DecidableEq, Repr

/-- The audio graph one `playClickSound` call schedules: the master gain and,
in creation order, the oscillators with their own gain nodes. -/
structure ToneGraph where
  masterGain : MasterGainNode
  oscillators : List (NodeRef × OscNode)
  gains : List (NodeRef × GainNode)
  deriving DecidableEq, Repr

/-- The constants of one branch of `playClickSound`'s `if (type === 'down')`. -/
structure BranchParams where
  snapFreqStart : ℚ
  snapFreqEnd : ℚ
  snapFreqRampDur : ℚ
  snapGainStart : ℚ
  snapGainEnd : ℚ
  snapDecayDur : ℚ
  bodyFreqStart : ℚ
  bodyFreqEnd : ℚ
  bodyFreqRampDur : ℚ
  bodyGainStart : ℚ
  bodyGainEnd : ℚ
  bodyDecayDur : ℚ
  deriving DecidableEq, Repr

/-- The `'down'` (press) branch constants of `playClickSound`. -/
def pressParams : BranchParams :=
  { snapFreqStart := 4500, snapFreqEnd := 1200, snapFreqRampDur := 0.008
    snapGainStart := 0.7, snapGainEnd := 0.001, snapDecayDur := 0.012
    bodyFreqStart := 400, bodyFreqEnd := 100, bodyFreqRampDur := 0.03
    bodyGainStart := 0.3, bodyGainEnd := 0.001, bodyDecayDur := 0.03 }

/-- The `'up'` (release) branch constants of `playClickSound`. -/
def releaseParams : BranchParams :=
  { snapFreqStart := 2800, snapFreqEnd := 800, snapFreqRampDur := 0.012
    snapGainStart := 0.5, snapGainEnd := 0.001, snapDecayDur := 0.012
    bodyFreqStart := 300, bodyFreqEnd := 60, bodyFreqRampDur := 0.05
    bodyGainStart := 0.4, bodyGainEnd := 0.001, bodyDecayDur := 0.05 }

/-- The branch constants selected by `playClickSound` for a tone event. -/
def branchOf : ToneEvent → BranchParams
  | ToneEvent.press => pressParams
  | ToneEvent.release => releaseParams

/-- The audio graph scheduled by the body of `playClickSound` once a context is
available, with `t = ctx.currentTime`.  Mirrors the source: a unity master gain
into the destination; a triangle snap oscillator into its own gain node into the
master; a sine body oscillator into its own gain node into the master; branch
constants per event type; `snapOsc` runs on `[t, t + 0.03]` and `bodyOsc` on
`[t, t + 0.1]`. -/
def playClickSoundGraph (t : ℚ) (ty : ToneEvent) : ToneGraph :=
  let p := branchOf ty
  { masterGain := { gainValue := 1.0, connectedTo := NodeRef.dest }
    oscillators :=
      [(NodeRef.snapOscN,
        { wave := Waveform.triangle
          freqStart := p.snapFreqStart, freqEnd := p.snapFreqEnd
          freqRampEnd := t + p.snapFreqRampDur
          startTime := t, stopTime := t + 0.03
          connectedTo := NodeRef.snapGainN }),
       (NodeRef.bodyOscN,
        { wave := Waveform.sine
          freqStart := p.bodyFreqStart, freqEnd := p.bodyFreqEnd
          freqRampEnd := t + p.bodyFreqRampDur
          startTime := t, stopTime := t + 0.1
          connectedTo := NodeRef.bodyGainN })]
    gains :=
      [(NodeRef.snapGainN,
        { gainStart := p.snapGainStart, gainEnd := p.snapGainEnd
          decayEnd := t + p.snapDecayDur
          connectedTo := NodeRef.master }),
       (NodeRef.bodyGainN,
        { gainStart := p.bodyGainStart, gainEnd := p.bodyGainEnd
          decayEnd := t + p.bodyDecayDur
          connectedTo := NodeRef.master })] }

/-- `playClickSound`: obtain the context via `getAudioContext` (which may
construct it), return without scheduling anything if it is unavailable,
otherwise schedule the tone graph.  Returns the new ref-cell contents and the
graph scheduled, if any. -/
def playClickSound (hasCtor : Bool) (fresh : AudioContextHandle) (t : ℚ)
    (ref : Option AudioContextHandle) (ty : ToneEvent) :
    Option AudioContextHandle × Option ToneGraph :=
  match (getAudioContext hasCtor fresh ref).1 with
  | none => ((getAudioContext hasCtor fresh ref).1, none)
  | some c => (some c, some (playClickSoundGraph t ty))

/-- The component's mutable state: the `isPressed` React state and the
`audioContextRef` ref cell. -/
structure ComponentState where
  isPressed : Bool
  audioContextRef : Option AudioContextHandle
  deriving DecidableEq, Repr

/-- One DOM event handled with its audio side effects: the handlers of the
source, with `playClickSound` threaded through the ref cell.  Returns the new
component state and the audio graph scheduled by the event, if any. -/
def componentStep (hasCtor : Bool) (fresh : AudioContextHandle) (t : ℚ)
    (s : ComponentState) (e : DomEvent) : ComponentState × Option ToneGraph :=
  match e with
  | DomEvent.mouseDown =>
      (⟨true, (playClickSound hasCtor fresh t s.audioContextRef ToneEvent.press).1⟩,
        (playClickSound hasCtor fresh t s.audioContextRef ToneEvent.press).2)
  | DomEvent.touchStart =>
      (⟨true, (playClickSound hasCtor fresh t s.audioContextRef ToneEvent.press).1⟩,
        (playClickSound hasCtor fresh t s.audioContextRef ToneEvent.press).2)
  | DomEvent.mouseUp =>
      if s.isPressed then
        (⟨false, (playClickSound hasCtor fresh t s.audioContextRef ToneEvent.release).1⟩,
          (playClickSound hasCtor fresh t s.audioContextRef ToneEvent.release).2)
      else (s, none)
  | DomEvent.touchEnd =>
      if s.isPressed then
        (⟨false, (playClickSound hasCtor fresh t s.audioContextRef ToneEvent.release).1⟩,
          (playClickSound hasCtor fresh t s.audioContextRef ToneEvent.release).2)
      else (s, none)
  | DomEvent.mouseLeave =>
      if s.isPressed then (⟨false, s.audioContextRef⟩, none) else (s, none)

/-- C1: a pointer-up or touch-end arriving in the Pressed state performs, in
order, `setIsPressed(false)`, `playClickSound('up')` (the Release tone) and the
`onToggle` callback; this state/event combination is the only one whose handler
invokes `onToggle`; and a pointer-down followed by pointer-up invokes
`onToggle` exactly once while scheduling exactly the Press then Release tones. -/
theorem pressEnd_commits_toggle_once :
    (handlePressEnd true =
        [ButtonAction.setPressed false, ButtonAction.playTone ToneEvent.release,
          ButtonAction.invokeToggle] ∧
      dispatch true DomEvent.mouseUp = handlePressEnd true ∧
      dispatch true DomEvent.touchEnd = handlePressEnd true) ∧
    (∀ (p : Bool) (e : DomEvent),
        ButtonAction.invokeToggle ∈ dispatch p e ↔
          p = true ∧ (e = DomEvent.mouseUp ∨ e = DomEvent.touchEnd)) ∧
    (tonesOf (run false [DomEvent.mouseDown, DomEvent.mouseUp]).2 =
        [ToneEvent.press, ToneEvent.release] ∧
      toggleCount (run false [DomEvent.mouseDown, DomEvent.mouseUp]).2 = 1) := by
  refine ⟨by decide, ?_, by decide⟩
  intro p e
  cases p <;> cases e <;> decide

/-- C2: starting from the Released state, after any sequence of DOM events the
pressed state is true iff the last event of the sequence is a press-start
(mouse-down or touch-start) — i.e. iff the most recent completed transition was
a press not yet followed by a release or a leave. -/
theorem pressedState_iff_last_event_press (es : List DomEvent) :
    (run false es).1 = true ↔ es.getLast?.any startsPress = true := by
  rw [run_fst_eq es false]
  simp

/-- C3: a pointer-leave in the Pressed state performs only
`setIsPressed(false)` — no tone, no toggle callback — and a pointer-down
followed by pointer-leave schedules exactly the Press tone and never invokes
`onToggle`. -/
theorem mouseLeave_aborts_press :
    (handleMouseLeave true = [ButtonAction.setPressed false] ∧
      dispatch true DomEvent.mouseLeave = handleMouseLeave true) ∧
    tonesOf (run false [DomEvent.mouseDown, DomEvent.mouseLeave]).2 = [ToneEvent.press] ∧
    toggleCount (run false [DomEvent.mouseDown, DomEvent.mouseLeave]).2 = 0 := by
  decide

/-- C4: when the capability probe reports no audio constructor and no context
exists, `playClickSound` schedules nothing and leaves the ref cell empty (the
function is total, so no error is raised); and the pressed-state transition of
the component is identical for all audio capabilities, times and ref-cell
contents, agreeing with the pure controller `stepState`. -/
theorem playClickSound_unavailable_noop :
    (∀ (fresh : AudioContextHandle) (t : ℚ) (ty : ToneEvent),
        playClickSound false fresh t none ty = (none, none)) ∧
    (∀ (hc1 hc2 : Bool) (f1 f2 : AudioContextHandle) (t1 t2 : ℚ)
        (r1 r2 : Option AudioContextHandle) (p : Bool) (e : DomEvent),
        (componentStep hc1 f1 t1 ⟨p, r1⟩ e).1.isPressed =
          (componentStep hc2 f2 t2 ⟨p, r2⟩ e).1.isPressed) ∧
    (∀ (hc : Bool) (f : AudioContextHandle) (t : ℚ) (s : ComponentState) (e : DomEvent),
        (componentStep hc f t s e).1.isPressed = stepState s.isPressed e) := by
  refine ⟨fun fresh t ty => rfl, ?_, ?_⟩
  · intro hc1 hc2 f1 f2 t1 t2 r1 r2 p e
    cases e <;> cases p <;> rfl
  · intro hc f t s e
    obtain ⟨p, r⟩ := s
    cases e <;> cases p <;> rfl

/-- C5: once a context is stored in the ref cell, every `getAudioContext` call
returns a handle to the same underlying context (same id) and performs no
construction; and over any sequence of calls starting from an empty ref cell,
at most one construction ever happens. -/
theorem getAudioContext_singleton :
    (∀ (hasCtor : Bool) (fresh c : AudioContextHandle),
        Option.map AudioContextHandle.ctxId (getAudioContext hasCtor fresh (some c)).1 =
            some c.ctxId ∧
          (getAudioContext hasCtor fresh (some c)).2 = 0) ∧
    (∀ calls : List (Bool × AudioContextHandle), (runGetCtx calls (none, 0)).2 ≤ 1) := by
  constructor
  · intro hasCtor fresh c
    exact ⟨getAudioContext_some_id hasCtor fresh c, by rw [getAudioContext_some]⟩
  · intro calls
    simpa using runGetCtx_none_le calls 0

/-- C6: for either tone event the scheduled graph has exactly two oscillators —
a triangle snap and a sine body, in that order — each feeding its own distinct
gain node, both gain nodes feeding the single master gain, which is fixed at
unity and connected to the destination sink. -/
theorem playClickSoundGraph_structure (t : ℚ) (ty : ToneEvent) :
    (playClickSoundGraph t ty).oscillators.length = 2 ∧
    ((playClickSoundGraph t ty).oscillators.map fun o => o.2.wave) =
        [Waveform.triangle, Waveform.sine] ∧
    ((playClickSoundGraph t ty).oscillators.map fun o => (o.1, o.2.connectedTo)) =
        [(NodeRef.snapOscN, NodeRef.snapGainN), (NodeRef.bodyOscN, NodeRef.bodyGainN)] ∧
    ((playClickSoundGraph t ty).gains.map fun g => (g.1, g.2.connectedTo)) =
        [(NodeRef.snapGainN, NodeRef.master), (NodeRef.bodyGainN, NodeRef.master)] ∧
    NodeRef.snapGainN ≠ NodeRef.bodyGainN ∧
    (playClickSoundGraph t ty).masterGain.gainValue = 1 ∧
    (playClickSoundGraph t ty).masterGain.connectedTo = NodeRef.dest := by
  cases ty <;>
    exact ⟨rfl, rfl, rfl, rfl, by decide, by norm_num [playClickSoundGraph], rfl⟩

/-- C7: for both tone events the snap oscillator runs from `t` to `t + 0.03`
and the body oscillator from `t` to `t + 0.1`, so the snap's scheduled stop
time is strictly below the body's. -/
theorem oscillator_stop_times (t : ℚ) (ty : ToneEvent) :
    ((playClickSoundGraph t ty).oscillators.map fun o => o.2.startTime) = [t, t] ∧
    ((playClickSoundGraph t ty).oscillators.map fun o => o.2.stopTime) =
        [t + 0.03, t + 0.1] ∧
    t + (0.03 : ℚ) < t + (0.1 : ℚ) := by
  cases ty <;> refine ⟨rfl, rfl, ?_⟩ <;> norm_num

/-- C8 counterexample: the snap gain decay window is 0.012 s in both the press
and the release branch, so it is not true that every ramp/decay window of
Release is strictly longer than the corresponding window of Press. -/
theorem release_snap_decay_not_longer :
    releaseParams.snapDecayDur = pressParams.snapDecayDur ∧
    ¬ pressParams.snapDecayDur < releaseParams.snapDecayDur := by
  norm_num [pressParams, releaseParams]

/-- C8 (amended): Release uses lower starting frequencies for both oscillators
than Press; its snap frequency ramp, body frequency ramp and body gain decay
windows are strictly longer than Press's, while the snap gain decay window is
equal (0.012 s in both branches); and Release's peak gains differ from
Press's. -/
theorem release_vs_press_params :
    releaseParams.snapFreqStart < pressParams.snapFreqStart ∧
    releaseParams.bodyFreqStart < pressParams.bodyFreqStart ∧
    pressParams.snapFreqRampDur < releaseParams.snapFreqRampDur ∧
    pressParams.bodyFreqRampDur < releaseParams.bodyFreqRampDur ∧
    pressParams.bodyDecayDur < releaseParams.bodyDecayDur ∧
    releaseParams.snapDecayDur = pressParams.snapDecayDur ∧
    releaseParams.snapGainStart ≠ pressParams.snapGainStart ∧
    releaseParams.bodyGainStart ≠ pressParams.bodyGainStart := by
  norm_num [pressParams, releaseParams]

/-- C9: a failed construction is not cached: a call with no constructor
available leaves the ref cell empty and constructs nothing, and a later call
that finds a constructor performs a fresh construction and returns a context. -/
theorem getAudioContext_failure_not_cached :
    (∀ fresh : AudioContextHandle, getAudioContext false fresh none = (none, 0)) ∧
    (∀ f f' : AudioContextHandle,
        ((getAudioContext true f' ((getAudioContext false f none).1)).1).isSome = true ∧
          (getAudioContext true f' ((getAudioContext false f none).1)).2 = 1) := by
  exact ⟨fun fresh => rfl, fun f f' => ⟨rfl, rfl⟩⟩

/-- C10: a pointer-up or touch-end arriving in the Released state is a no-op:
the handler performs no action at all, the pressed state stays false, no tone
is scheduled and `onToggle` is not invoked. -/
theorem pressEnd_in_released_noop :
    dispatch false DomEvent.mouseUp = [] ∧
    dispatch false DomEvent.touchEnd = [] ∧
    stepState false DomEvent.mouseUp = false ∧
    stepState false DomEvent.touchEnd = false ∧
    tonesOf (dispatch false DomEvent.mouseUp) = [] ∧
    toggleCount (dispatch false DomEvent.mouseUp) = 0 := by
  decide
